import Mathlib

/-!
# Verification of the 8-ball pool simulation (previous.c / updated.c)

Shallow embedding of the two C sources of the repository:

* `src/8 ball/previous.c` — functions `initGame`, `resetBalls`, `chkPockets`,
  `applyScratch`, `handleInput`, `playerIdxForType`, `resolveElastic`,
  `clampSpeed`, `updPhysics`, `ballsAreMoving`;
* `src/8 ball/updated.c` — functions `InitGame`, `ResetBalls`, `CheckPockets`,
  `ApplyScratch`, `HandleInput`, `playerIndexForType`,
  `ResolveElasticCollision`, `ClampBallSpeed`, `UpdatePhysics`,
  `CheckCollisions`, `UpdateGame`, `AreBallsMoving`, `CheckWinCondition`,
  `NextTurn`.

Modelling conventions, chosen so that every definition is computable and every
concrete run can be settled by `decide`:

* C `float` scalars are modelled as `ℚ`.  All constants of the program
  (FRICTION = 0.985, restitution −0.86, MIN_VELOCITY = 0.06, …) are exact
  decimal literals, hence exactly representable.
* `sqrtf` has no rational counterpart.  Wherever the C code computes
  `d = sqrtf(e)` and then *compares* `d` with a nonnegative constant `c`,
  the model compares `e` with `c*c`; the lemma `sqrt_cmp_iff` below proves
  (inside ℚ, for any value `d ≥ 0` with `d^2 = e`) that the two comparisons
  agree, so this is a faithful refinement.  Wherever the C code *uses* the
  value `d` itself (`ClampBallSpeed`, `ResolveElasticCollision`, the shot
  direction), the model takes `d` as an explicit argument and the theorems
  carry the hypotheses `0 ≤ d` and `d^2 = e` that characterise `sqrtf`
  exactly.
* The C status strings built with `sprintf` are modelled by the inductive
  type `Msg`, one constructor per format string, carrying the interpolated
  player name.
* `balls[16]` is modelled as a total map `ℕ → Ball`; the scan order
  `for (i = 0; i < MAX_BALLS; i++)` is the explicit index list `scanIdx`.
-/

/-- 2-D vector (C `Vector2`), with rational components. -/
structure Vec where
  x : ℚ
  y : ℚ
  deriving DecidableEq

/-- Squared euclidean distance between two points.  The C helper
`Distance` returns `sqrtf` of this quantity; comparisons against
nonnegative bounds are performed on the squares (see `sqrt_cmp_iff`). -/
def sqDist (a b : Vec) : ℚ := (a.x - b.x) ^ 2 + (a.y - b.y) ^ 2

/-- Squared magnitude of a vector. -/
def sqNorm (v : Vec) : ℚ := v.x ^ 2 + v.y ^ 2

/-- Dot product of two vectors. -/
def dot (u v : Vec) : ℚ := u.x * v.x + u.y * v.y

/-- C enum `BallType`. -/
inductive BallType where
  | cue
  | solid
  | stripe
  | eight
  deriving DecidableEq

/-- C enum `GameState`. -/
inductive GameState where
  | start
  | playing
  | scratch
  | won
  | lost
  deriving DecidableEq

/-- C enum `PlayerType`. -/
inductive PlayerType where
  | none
  | solids
  | stripes
  deriving DecidableEq

/-- The status strings the program writes with `strcpy` / `sprintf`,
one constructor per format string; interpolated player names are carried
as fields. -/
inductive Msg where
  | breakShot
  | scratch
  | pocketedBy (name : String)
  | cuePlaced (name : String)
  | turnOf (name : String)
  | invalidPos
  | shootEight
  deriving DecidableEq

/-- C struct `Ball` (the `color` field is rendering-only and is omitted:
no game-logic statement in either file reads it). -/
structure Ball where
  position : Vec
  velocity : Vec
  type : BallType
  number : ℕ
  pocketed : Bool
  isStriped : Bool
  deriving DecidableEq

/-- C struct `Player`.  `ballsRemaining` is a C `int`, hence `ℤ`. -/
structure Player where
  type : PlayerType
  ballsRemaining : ℤ
  name : String
  deriving DecidableEq

/-- C struct `Game`.  `balls[16]` becomes a total map from indices;
only indices `0..15` are ever read or written (scan list `scanIdx`). -/
structure Game where
  balls : ℕ → Ball
  players : Player × Player
  currentPlayer : ℕ
  state : GameState
  cueBallPos : Vec
  power : ℚ
  aiming : Bool
  ballsMoving : Bool
  firstShot : Bool
  assignedTypes : Bool
  statusMessage : Msg
  dragStart : Vec
  stickPullPixels : ℚ
  stickLength : ℚ
  stickRecoil : Bool
  recoilTimer : ℚ

/-- One frame of pointer/keyboard input (the raylib polling functions
`IsKeyPressed(KEY_R)`, `GetMousePosition`, `IsMouseButtonPressed`,
`IsMouseButtonDown`, `IsMouseButtonReleased`). -/
structure Input where
  keyR : Bool
  mouse : Vec
  pressed : Bool
  down : Bool
  released : Bool
  deriving DecidableEq

/-- `players[i]` for `i ∈ {0,1}` (any other index reads `players[1]`,
which never happens on the indices the program uses). -/
def getPlayer (g : Game) (i : ℕ) : Player :=
  if i = 0 then g.players.1 else g.players.2

/-- Write `players[i].type`. -/
def setPlayerType (g : Game) (i : ℕ) (t : PlayerType) : Game :=
  if i = 0 then { g with players := ({ g.players.1 with type := t }, g.players.2) }
  else { g with players := (g.players.1, { g.players.2 with type := t }) }

/-- Write `players[i].ballsRemaining`. -/
def setPlayerRemain (g : Game) (i : ℕ) (r : ℤ) : Game :=
  if i = 0 then { g with players := ({ g.players.1 with ballsRemaining := r }, g.players.2) }
  else { g with players := (g.players.1, { g.players.2 with ballsRemaining := r }) }

/-- Pointwise array update `balls[i] = f(balls[i])`. -/
def updBall (bs : ℕ → Ball) (i : ℕ) (f : Ball → Ball) : ℕ → Ball :=
  fun j => if j = i then f (bs j) else bs j

/-- The six pocket centers, common to both files
(`RAIL_WIDTH = 40`, `TABLE_WIDTH = 800`, `TABLE_HEIGHT = 400`). -/
def pocketList : List Vec :=
  [⟨40, 40⟩, ⟨400, 40⟩, ⟨760, 40⟩, ⟨40, 360⟩, ⟨400, 360⟩, ⟨760, 360⟩]

/-- `Distance(ball, pocket) < POCKET_RADIUS` for some pocket, i.e. the
inner `for (p = 0; p < 6; p++)` test.  `POCKET_RADIUS = 28`, squared 784. -/
def inAnyPocket (p : Vec) : Bool :=
  pocketList.any (fun q => decide (sqDist p q < 784))

/-- C `playerIdxForType` / `playerIndexForType` (both files are
identical); the C sentinel `-1` becomes `none`. -/
def playerIndexForType (g : Game) (t : BallType) : Option ℕ :=
  if t = BallType.solid then
    (if g.players.1.type = PlayerType.solids then some 0
     else if g.players.2.type = PlayerType.solids then some 1 else none)
  else if t = BallType.stripe then
    (if g.players.1.type = PlayerType.stripes then some 0
     else if g.players.2.type = PlayerType.stripes then some 1 else none)
  else none

/-- C `applyScratch` / `ApplyScratch` (identical in both files):
enter the scratch state, write the scratch message, hand the turn to
the opponent. -/
def applyScratch (g : Game) : Game :=
  { g with state := GameState.scratch
           statusMessage := Msg.scratch
           currentPlayer := 1 - g.currentPlayer }

/-- C `nextTurn` / `NextTurn`. -/
def nextTurn (g : Game) : Game :=
  let g1 := { g with currentPlayer := 1 - g.currentPlayer }
  { g1 with statusMessage := Msg.turnOf (getPlayer g1 g1.currentPlayer).name }

/-- C `chkWin` / `CheckWinCondition`: informational message only. -/
def checkWinCondition (g : Game) : Game :=
  let p := getPlayer g g.currentPlayer
  if (p.type = PlayerType.solids ∧ p.ballsRemaining = 0) ∨
     (p.type = PlayerType.stripes ∧ p.ballsRemaining = 0) then
    { g with statusMessage := Msg.shootEight }
  else g

/-- The loop indices `0..15` of every `for (i = 0; i < MAX_BALLS; i++)`. -/
def scanIdx : List ℕ := [0, 1, 2, 3, 4, 5, 6, 7, 8, 9, 10, 11, 12, 13, 14, 15]

/-- C `ballsAreMoving` / `AreBallsMoving` (`MIN_VELOCITY = 0.06`). -/
def areBallsMoving (g : Game) : Bool :=
  scanIdx.any (fun i =>
    !(g.balls i).pocketed &&
      (decide ((0.06 : ℚ) < |(g.balls i).velocity.x|) ||
       decide ((0.06 : ℚ) < |(g.balls i).velocity.y|)))

/-- Row index (first) and column index (second) of rack slot `idx`,
unrolling the `for (row) for (col)` loop of `resetBalls`/`ResetBalls`:
`idx` runs 1,2,…,15 through rows 0..4, row `r` holding `r+1` balls. -/
def rackRC : ℕ → ℚ × ℚ
  | 1 => (0, 0)
  | 2 => (1, 0) | 3 => (1, 1)
  | 4 => (2, 0) | 5 => (2, 1) | 6 => (2, 2)
  | 7 => (3, 0) | 8 => (3, 1) | 9 => (3, 2) | 10 => (3, 3)
  | 11 => (4, 0) | 12 => (4, 1) | 13 => (4, 2) | 14 => (4, 3) | 15 => (4, 4)
  | _ => (0, 0)

/-- The ball written into slot `idx` by `resetBalls` / `ResetBalls`
(identical in both files).  The triangle apex is at
(800*0.72, 400*0.5) = (576, 200); `offsetX = row*(2*15*0.88)`,
`offsetY = col*2*15 - row*15`.  The cue ball starts at
(800*0.25, 400*0.5) = (200, 200). -/
def initBall (idx : ℕ) : Ball :=
  if idx = 0 then
    { position := ⟨200, 200⟩, velocity := ⟨0, 0⟩, type := BallType.cue
      number := 0, pocketed := false, isStriped := false }
  else
    { position := ⟨576 + (rackRC idx).1 * 26.4, 200 + (rackRC idx).2 * 30 - (rackRC idx).1 * 15⟩
      velocity := ⟨0, 0⟩
      type := if idx = 8 then BallType.eight
              else if idx ≤ 7 then BallType.solid else BallType.stripe
      number := idx
      pocketed := false
      isStriped := decide (8 < idx ∧ idx ≤ 15) }

namespace Upd

/-- C `InitGame` of updated.c (which ends by calling `ResetBalls`);
`cueBallPos` is set by `ResetBalls` to the cue start position. -/
def InitGame : Game :=
  { balls := initBall
    players := ({ type := PlayerType.none, ballsRemaining := 7, name := "Player 1" },
                { type := PlayerType.none, ballsRemaining := 7, name := "Player 2" })
    currentPlayer := 0
    state := GameState.start
    cueBallPos := ⟨200, 200⟩
    power := 0
    aiming := false
    ballsMoving := false
    firstShot := true
    assignedTypes := false
    statusMessage := Msg.breakShot
    dragStart := ⟨0, 0⟩
    stickPullPixels := 0
    stickLength := 120
    stickRecoil := false
    recoilTimer := 0 }

end Upd

namespace Prev

/-- C `initGame` of previous.c: identical to updated.c except for the
player-name spellings. -/
def initGame : Game :=
  { Upd.InitGame with
      players := ({ type := PlayerType.none, ballsRemaining := 7, name := "Player1" },
                  { type := PlayerType.none, ballsRemaining := 7, name := "Player2" }) }

end Prev

/-- Mark `balls[i]` pocketed and zero its velocity (the two assignments
at the top of the pocket hit in both files). -/
def markPocketed (g : Game) (i : ℕ) : Game :=
  { g with balls := updBall g.balls i (fun b => { b with pocketed := true, velocity := ⟨0, 0⟩ }) }

/-- The cue-ball branch of the pocket hit: also reset the respawn
anchor to the initial cue position (800*0.25, 400*0.5). -/
def markCue (g : Game) : Game :=
  { markPocketed g 0 with cueBallPos := ⟨200, 200⟩ }

/-- The win test of the 8-ball branch, common to both files: the
*current* player holds solids or stripes with zero balls remaining. -/
def eightWin (g : Game) : Bool :=
  let p := getPlayer g g.currentPlayer
  decide ((p.type = PlayerType.solids ∧ p.ballsRemaining = 0) ∨
          (p.type = PlayerType.stripes ∧ p.ballsRemaining = 0))

/-- Result of processing one ball of the pocket scan: either continue
with the new state and accumulator flags, or return from the scan
immediately (the C `return` of the 8-ball branch). -/
inductive StepRes where
  | cont (g : Game) (cueP anyP : Bool)
  | halt (g : Game)

namespace Upd

/-- One iteration of the `CheckPockets` ball loop of updated.c
(lines 553-592): skip pocketed balls; on a pocket hit mark the ball,
record the cue scratch for index 0, and on the 8-ball decide
won/lost and return immediately.  updated.c has no other per-ball
action (no type assignment, no ballsRemaining decrement). -/
def processBall (g : Game) (cueP anyP : Bool) (i : ℕ) : StepRes :=
  let b := g.balls i
  if b.pocketed then StepRes.cont g cueP anyP
  else if inAnyPocket b.position then
    (if i = 0 then StepRes.cont (markCue g) true true
     else if b.type = BallType.eight then
       StepRes.halt { markPocketed g i with
                        state := if eightWin g then GameState.won else GameState.lost }
     else StepRes.cont (markPocketed g i) cueP true)
  else StepRes.cont g cueP anyP

/-- The code after the `CheckPockets` loop (lines 595-602): apply the
scratch if the cue was pocketed, then — reading `currentPlayer` *after*
that swap — write the pocketed-a-ball narration if any ball sank. -/
def scanFinish (g : Game) (cueP anyP : Bool) : Game :=
  let g1 := if cueP then applyScratch g else g
  if anyP then
    { g1 with statusMessage := Msg.pocketedBy (getPlayer g1 g1.currentPlayer).name }
  else g1

/-- The `CheckPockets` ball loop, processed over an explicit index list. -/
def cpAux (g : Game) (cueP anyP : Bool) : List ℕ → Game
  | [] => scanFinish g cueP anyP
  | i :: rest =>
    match processBall g cueP anyP i with
    | StepRes.cont g1 c a => cpAux g1 c a rest
    | StepRes.halt gf => gf

/-- C `CheckPockets` of updated.c. -/
def CheckPockets (g : Game) : Game := cpAux g false false scanIdx

end Upd

namespace Prev

/-- The first-pocket type assignment of previous.c (lines 252-261):
only when no type is assigned yet *and* the break-shot flag is still
set; a solid gives the current player solids, anything else (the
branch is a plain `else`) gives stripes, the opponent the complement. -/
def assignTypes (g : Game) (t : BallType) : Game :=
  let g1 :=
    if t = BallType.solid then
      setPlayerType (setPlayerType g g.currentPlayer PlayerType.solids)
        (1 - g.currentPlayer) PlayerType.stripes
    else
      setPlayerType (setPlayerType g g.currentPlayer PlayerType.stripes)
        (1 - g.currentPlayer) PlayerType.solids
  { g1 with assignedTypes := true }

/-- The group-ball decrement of previous.c (lines 270-271): find the
owner of the ball type; if assigned and their count is positive,
decrement it. -/
def decOwner (g : Game) (t : BallType) : Game :=
  match playerIndexForType g t with
  | some o =>
    if 0 < (getPlayer g o).ballsRemaining then
      setPlayerRemain g o ((getPlayer g o).ballsRemaining - 1)
    else g
  | none => g

/-- One iteration of the `chkPockets` ball loop of previous.c
(lines 241-277): like updated.c but with the type assignment and the
owner decrement in the non-cue branch. -/
def processBall (g : Game) (cueP anyP : Bool) (i : ℕ) : StepRes :=
  let b := g.balls i
  if b.pocketed then StepRes.cont g cueP anyP
  else if inAnyPocket b.position then
    (if i = 0 then StepRes.cont (markCue g) true true
     else
       let g1 := markPocketed g i
       let g2 := if !g1.assignedTypes && g1.firstShot then assignTypes g1 b.type else g1
       if b.type = BallType.eight then
         StepRes.halt { g2 with
                          state := if eightWin g2 then GameState.won else GameState.lost }
       else StepRes.cont (decOwner g2 b.type) cueP true)
  else StepRes.cont g cueP anyP

/-- The `chkPockets` ball loop of previous.c (the after-loop code,
lines 278-279, is identical to updated.c and reuses `Upd.scanFinish`). -/
def cpAux (g : Game) (cueP anyP : Bool) : List ℕ → Game
  | [] => Upd.scanFinish g cueP anyP
  | i :: rest =>
    match processBall g cueP anyP i with
    | StepRes.cont g1 c a => cpAux g1 c a rest
    | StepRes.halt gf => gf

/-- C `chkPockets` of previous.c. -/
def chkPockets (g : Game) : Game := cpAux g false false scanIdx

end Prev

/-!  ## Physics: motion integration, speed clamping, elastic collisions

The loop body of `updPhysics` / `UpdatePhysics` for one non-pocketed ball,
and the collision resolution of `chkCollisions` / `CheckCollisions`.
Where the C code computes a square root and *uses the value* (not just a
comparison), the value is taken as an explicit argument (`mag`, `d`),
characterised in the theorems by `0 ≤ mag` and `mag ^ 2 = ...`. -/

/-- C `clampSpeed` / `ClampBallSpeed`.  `mag` stands for the value
`sqrtf(vx*vx + vy*vy)` the C code computes. -/
def clampBallSpeedM (b : Ball) (mag maxSpeed : ℚ) : Ball :=
  if maxSpeed < mag then
    { b with velocity := ⟨b.velocity.x / mag * maxSpeed, b.velocity.y / mag * maxSpeed⟩ }
  else b

/-- The integration part of the `updPhysics` / `UpdatePhysics` loop body
(updated.c lines 228-261): advance by velocity, apply FRICTION = 0.985,
snap components below MIN_VELOCITY = 0.06 to zero, then the four
sequential rail bounces (clamp position to the rail-inset bound and
scale the perpendicular velocity by −0.86).  Bounds:
RAIL_WIDTH + BALL_RADIUS = 55, TABLE_WIDTH − RAIL_WIDTH = 760,
TABLE_HEIGHT − RAIL_WIDTH = 360. -/
def integrateBall (b : Ball) : Ball :=
  let px0 := b.position.x + b.velocity.x
  let py0 := b.position.y + b.velocity.y
  let vx0 := b.velocity.x * 0.985
  let vy0 := b.velocity.y * 0.985
  let vx1 := if |vx0| < 0.06 then 0 else vx0
  let vy1 := if |vy0| < 0.06 then 0 else vy0
  let q1 : ℚ × ℚ := if px0 - 15 < 40 then (55, vx1 * (-0.86)) else (px0, vx1)
  let q2 : ℚ × ℚ := if q1.1 + 15 > 760 then (745, q1.2 * (-0.86)) else q1
  let q3 : ℚ × ℚ := if py0 - 15 < 40 then (55, vy1 * (-0.86)) else (py0, vy1)
  let q4 : ℚ × ℚ := if q3.1 + 15 > 360 then (345, q3.2 * (-0.86)) else q3
  { b with position := ⟨q2.1, q4.1⟩, velocity := ⟨q2.2, q4.2⟩ }

/-- The complete loop body of `UpdatePhysics` for one non-pocketed ball:
integration followed by `ClampBallSpeed(&ball, MAX_BALL_SPEED)` with
MAX_BALL_SPEED = 26.  `mag` is the speed `sqrtf` of the integrated
velocity. -/
def moveBall (b : Ball) (mag : ℚ) : Ball :=
  clampBallSpeedM (integrateBall b) mag 26

/-- C `resolveElastic` / `ResolveElasticCollision`.  `d` stands for the
center distance `sqrtf(dx*dx + dy*dy)` the C code computes; the guard
`d <= 0.0001` returns with both balls unchanged.  Otherwise the
velocities are decomposed along the unit normal `n = (dx/d, dy/d)` and
tangent `t = (-ny, nx)`, the normal components are swapped and the
tangential components kept. -/
def resolveElasticM (a b : Ball) (d : ℚ) : Ball × Ball :=
  let dx := b.position.x - a.position.x
  let dy := b.position.y - a.position.y
  if d ≤ 0.0001 then (a, b)
  else
    let nx := dx / d
    let ny := dy / d
    let tx := -ny
    let ty := nx
    let van := a.velocity.x * nx + a.velocity.y * ny
    let vat := a.velocity.x * tx + a.velocity.y * ty
    let vbn := b.velocity.x * nx + b.velocity.y * ny
    let vbt := b.velocity.x * tx + b.velocity.y * ty
    ({ a with velocity := ⟨vbn * nx + vat * tx, vbn * ny + vat * ty⟩ },
     { b with velocity := ⟨van * nx + vbt * tx, van * ny + vbt * ty⟩ })

/-- The unit collision normal `(dx/d, dy/d)` of
`ResolveElasticCollision`. -/
def collisionNormal (a b : Ball) (d : ℚ) : Vec :=
  ⟨(b.position.x - a.position.x) / d, (b.position.y - a.position.y) / d⟩

/-- The collision tangent `(-ny, nx)`. -/
def collisionTangent (a b : Ball) (d : ℚ) : Vec :=
  ⟨-(collisionNormal a b d).y, (collisionNormal a b d).x⟩

/-- The tail of a collision hit in `chkCollisions` / `CheckCollisions`
(updated.c lines 482-490): resolve the elastic collision, then clamp
both balls to MAX_BALL_SPEED.  (The positional separation that
precedes it touches only positions, not velocities.)  `magA`, `magB`
are the speeds `sqrtf` computes inside the two `ClampBallSpeed`
calls. -/
def collideResolve (a b : Ball) (d magA magB : ℚ) : Ball × Ball :=
  (clampBallSpeedM (resolveElasticM a b d).1 magA 26,
   clampBallSpeedM (resolveElasticM a b d).2 magB 26)

/-!  ## Input handling and the per-tick update of updated.c -/

namespace Upd

/-- The scratch-mode block of `HandleInput` (updated.c lines 359-380):
a press strictly inside the rail-inset interior
(`RAIL_WIDTH + BALL_RADIUS = 55` off every edge) relocates the cue
ball, clears its pocketed flag and velocity and resumes play; a press
outside is rejected with a message; no press changes nothing. -/
def scratchInput (g : Game) (inp : Input) : Game :=
  if inp.pressed then
    (if 55 < inp.mouse.x ∧ inp.mouse.x < 745 ∧ 55 < inp.mouse.y ∧ inp.mouse.y < 345 then
       { g with cueBallPos := inp.mouse
                balls := updBall g.balls 0 (fun b => { b with position := inp.mouse, pocketed := false, velocity := ⟨0, 0⟩ })
                state := GameState.playing
                statusMessage := Msg.cuePlaced (getPlayer g g.currentPlayer).name }
     else { g with statusMessage := Msg.invalidPos })
  else g

/-- The aim-start block of `HandleInput`: a press within
`BALL_RADIUS*1.6 = 24` (squared: 576) of the logical cue position
begins aiming. -/
def aimPress (g : Game) (inp : Input) (cuePos : Vec) : Game :=
  if inp.pressed ∧ sqDist inp.mouse cuePos ≤ 576 then
    { g with aiming := true
             dragStart := inp.mouse
             stickPullPixels := 0
             power := 0 }
  else g

/-- The drag block of `HandleInput`.  `pull` stands for
`min(Distance(mousePos, cueBallPos), MAX_POWER_PIXELS)`, a square
root the model does not compute (no theorem depends on it). -/
def aimDrag (g : Game) (inp : Input) (pull : ℚ) : Game :=
  if inp.down ∧ g.aiming then { g with stickPullPixels := pull, power := pull / 160 } else g

/-- The release block of `HandleInput` of updated.c: a null gesture
(drag length below 0.001; squared: 0.000001) only ends aiming;
otherwise the cue ball receives the shot velocity (`shotVec`, standing
for `dir * shotSpeed`), play begins, the break-shot flag is cleared
and the recoil animation starts. -/
def aimRelease (g : Game) (inp : Input) (cuePos shotVec : Vec) : Game :=
  if inp.released ∧ g.aiming then
    (if sqDist inp.mouse cuePos < 0.000001 then { g with aiming := false }
     else
       { g with aiming := false
                balls := updBall g.balls 0 (fun b => { b with velocity := shotVec })
                state := GameState.playing
                firstShot := false
                stickRecoil := true
                recoilTimer := 0.12
                power := 0 })
  else g

/-- C `HandleInput` of updated.c.  The raylib polls are the fields of
`inp`.  Two quantities the C code derives with `sqrtf` are passed as
explicit arguments and otherwise unconstrained (a sound
over-approximation — no theorem below depends on their values):
`pull` stands for `min(Distance(mousePos, cueBallPos), 160)` of the
drag branch, and `shotVec` for `dir * shotSpeed` of the release
branch.  The two comparisons against `BALL_RADIUS*1.6 = 24` and the
null-gesture epsilon `0.001` are performed on squared distances
(`24² = 576`, `0.001² = 0.000001`), see `sqrt_cmp_iff`. -/
def HandleInput (g : Game) (inp : Input) (pull : ℚ) (shotVec : Vec) : Game :=
  if inp.keyR then InitGame
  else if g.state = GameState.scratch then scratchInput g inp
  else if g.ballsMoving then g
  else
    let cuePos := if (g.balls 0).pocketed then g.cueBallPos else (g.balls 0).position
    aimRelease (aimDrag (aimPress g inp cuePos) inp pull) inp cuePos shotVec

/-- The cue-stick recoil block at the top of `UpdateGame`
(updated.c lines 301-319). -/
def recoilStep (g : Game) : Game :=
  if g.stickRecoil then
    let t := g.recoilTimer - 1 / 60
    if t ≤ 0 then { g with recoilTimer := t, stickRecoil := false, stickPullPixels := 0 }
    else
      let sp := g.stickPullPixels * 0.92
      let pw := sp / 160
      { g with recoilTimer := t
               stickPullPixels := sp
               power := if pw < 0 then 0 else pw }
  else g

/-- Abstraction of the numeric motion pass: the integration loop of
`UpdatePhysics` and the whole of `CheckCollisions` assign only the
`position` and `velocity` fields of non-pocketed balls (see
`integrateBall`, `resolveElasticM` for the per-ball arithmetic, which
involves `sqrtf`).  For the state-machine claims the exact values are
irrelevant, so the pass is modelled by an arbitrary per-ball update
`f` of those two fields — a superset of the behaviours of the C
code. -/
def physApply (f : ℕ → Ball → Vec × Vec) (g : Game) : Game :=
  { g with balls := fun i =>
      let b := g.balls i
      if b.pocketed then b
      else { b with position := (f i b).1, velocity := (f i b).2 } }

/-- C `UpdatePhysics`: the motion/collision pass followed by
`CheckPockets`. -/
def UpdatePhysicsStep (g : Game) (f : ℕ → Ball → Vec × Vec) : Game :=
  CheckPockets (physApply f g)

/-- C `UpdateGame` of updated.c: input handling, recoil decay, then —
only in the playing or scratch states — physics plus the
falling/rising edge detection of `ballsMoving` and the settle logic
(`CheckWinCondition`, `NextTurn`). -/
def UpdateGameStep (g : Game) (inp : Input) (pull : ℚ) (shotVec : Vec)
    (f : ℕ → Ball → Vec × Vec) : Game :=
  let g1 := HandleInput g inp pull shotVec
  let g2 := recoilStep g1
  if g2.state = GameState.playing ∨ g2.state = GameState.scratch then
    let g3 := UpdatePhysicsStep g2 f
    let g4 := if g3.ballsMoving = false ∧ areBallsMoving g3 = true then
        { g3 with ballsMoving := true }
      else g3
    if g4.ballsMoving = true ∧ areBallsMoving g4 = false then
      let g5 := { g4 with ballsMoving := false }
      if g5.state = GameState.playing then
        let g6 := checkWinCondition g5
        if g6.state ≠ GameState.won ∧ g6.state ≠ GameState.lost then nextTurn g6 else g6
      else g5
    else g4
  else g2

/-- The states of updated.c reachable from `InitGame` under arbitrary
input traces (each tick is one `UpdateGameStep` with arbitrary input
and arbitrary values for the numeric oracles — a superset of the real
traces, so every invariant proven over it holds of the C program). -/
inductive Reachable : Game → Prop where
  | init : Reachable InitGame
  | step (g : Game) (inp : Input) (pull : ℚ) (shotVec : Vec)
      (f : ℕ → Ball → Vec × Vec) :
      Reachable g → Reachable (UpdateGameStep g inp pull shotVec f)

end Upd

namespace Prev

/-- The release block of previous.c `handleInput`: unlike updated.c,
the null-gesture branch also resets `pullDist` and `power` before
returning. -/
def aimReleaseP (g : Game) (inp : Input) (cuePos shotVec : Vec) : Game :=
  if inp.released ∧ g.aiming then
    (if sqDist inp.mouse cuePos < 0.000001 then
       { g with aiming := false, stickPullPixels := 0, power := 0 }
     else
       { g with aiming := false
                balls := updBall g.balls 0 (fun b => { b with velocity := shotVec })
                state := GameState.playing
                firstShot := false
                stickRecoil := true
                recoilTimer := 0.12
                power := 0 })
  else g

/-- C `handleInput` of previous.c: identical to updated.c's
`HandleInput` apart from the null-gesture branch above and the
previous.c player names on reset. -/
def handleInput (g : Game) (inp : Input) (pull : ℚ) (shotVec : Vec) : Game :=
  if inp.keyR then initGame
  else if g.state = GameState.scratch then Upd.scratchInput g inp
  else if g.ballsMoving then g
  else
    let cuePos := if (g.balls 0).pocketed then g.cueBallPos else (g.balls 0).position
    aimReleaseP (Upd.aimDrag (Upd.aimPress g inp cuePos) inp pull) inp cuePos shotVec

end Prev

/-!  ## Scan-level predicates -/

/-- The ball at index `i` would be detected by this tick's pocket scan:
it is not yet pocketed and its center lies within the capture radius
of some pocket. -/
def detB (g : Game) (i : ℕ) : Bool :=
  !(g.balls i).pocketed && inAnyPocket (g.balls i).position

/-- The scan of this tick pockets the cue ball (ball 0 is processed
first and nothing can return before it). -/
abbrev cueDet (g : Game) : Prop := detB g 0 = true

/-- The scan of this tick sinks the 8-ball (under `WF` only ball 8 has
type eight, so only its processing can take the 8-ball branch). -/
abbrev eightDet (g : Game) : Prop := detB g 8 = true

/-- The ball type `resetBalls` / `ResetBalls` gives slot `i`. -/
def stdType (i : ℕ) : BallType :=
  if i = 0 then BallType.cue
  else if i = 8 then BallType.eight
  else if i ≤ 7 then BallType.solid
  else BallType.stripe

/-- Well-formedness of the rack typing: every slot holds a ball of the
type `resetBalls` put there.  No code in either file ever writes a
`type` field after the reset, so this is an invariant (proved below
for updated.c as part of the reachability invariant). -/
abbrev WF (g : Game) : Prop := ∀ i, i ≤ 15 → (g.balls i).type = stdType i

/-- Processing index `i` cannot take the 8-ball `return` branch of the
scan: if the ball would be detected, it is not the eight. -/
def haltFree (g : Game) (i : ℕ) : Prop :=
  detB g i = true → (g.balls i).type ≠ BallType.eight

/-!  ## Concrete states and inputs used by witnesses and counterexamples -/

/-- Rack start, playing, with the 8-ball relocated onto the corner
pocket (40, 360). -/
def tEight : Game :=
  { Upd.InitGame with
      state := GameState.playing
      balls := updBall Upd.InitGame.balls 8 (fun b => { b with position := ⟨40, 360⟩ }) }

/-- Rack start (break state: `firstShot` still set, nothing assigned),
playing, with solid ball 1 relocated onto the pocket (40, 40). -/
def tSolidPocket : Game :=
  { Upd.InitGame with
      state := GameState.playing
      balls := updBall Upd.InitGame.balls 1 (fun b => { b with position := ⟨40, 40⟩ }) }

/-- A mid-game state: player 1 assigned Solids with 5 remaining, and
their solid ball 3 sitting on the pocket (40, 40). -/
def tAssignedPocket : Game :=
  { Upd.InitGame with
      state := GameState.playing
      firstShot := false
      assignedTypes := true
      players := ({ type := PlayerType.solids, ballsRemaining := 5, name := "Player 1" },
                  { type := PlayerType.stripes, ballsRemaining := 7, name := "Player 2" })
      balls := updBall Upd.InitGame.balls 3 (fun b => { b with position := ⟨40, 40⟩ }) }

/-- Rack start, playing, with the cue ball on the pocket (40, 40). -/
def tCuePocket : Game :=
  { Upd.InitGame with
      state := GameState.playing
      balls := updBall Upd.InitGame.balls 0 (fun b => { b with position := ⟨40, 40⟩ }) }

/-- Cue ball on pocket (40, 40) and 8-ball on pocket (400, 360) in the
same tick. -/
def tCueEight : Game :=
  { Upd.InitGame with
      state := GameState.playing
      balls := updBall (updBall Upd.InitGame.balls 0 (fun b => { b with position := ⟨40, 40⟩ }))
        8 (fun b => { b with position := ⟨400, 360⟩ }) }

/-- A scratch state: rack untouched, cue ball pocketed, waiting for
placement. -/
def tScratch : Game :=
  { Upd.InitGame with
      state := GameState.scratch
      balls := updBall Upd.InitGame.balls 0 (fun b => { b with pocketed := true }) }

/-- A pointer press at `m` (the scratch placement gesture). -/
def tPlaceInput (m : Vec) : Input :=
  { keyR := false, mouse := m, pressed := true, down := false, released := false }

/-- The state after the scratch placement press at `m`. -/
def tPlace (m : Vec) : Game := Upd.HandleInput tScratch (tPlaceInput m) 0 ⟨0, 0⟩

/-- A previous.c state with the break-shot flag already cleared. -/
def tNoFS : Game := { Prev.initGame with firstShot := false }

/-- A release event away from the cue ball. -/
def tReleaseInput : Input :=
  { keyR := false, mouse := ⟨300, 200⟩, pressed := false, down := false, released := true }

/-- A previous.c state mid-aim. -/
def tAim : Game := { Prev.initGame with aiming := true }

/-- A ball moving at speed 40 along x, well inside the table. -/
def tBallFast : Ball :=
  { position := ⟨100, 200⟩, velocity := ⟨40, 0⟩, type := BallType.cue
    number := 0, pocketed := false, isStriped := false }

/-- Collision pair at distance 5 (3-4-5 triangle). -/
def tBallA : Ball :=
  { position := ⟨0, 0⟩, velocity := ⟨1, 2⟩, type := BallType.cue
    number := 0, pocketed := false, isStriped := false }

def tBallB : Ball :=
  { position := ⟨3, 4⟩, velocity := ⟨3, -1⟩, type := BallType.solid
    number := 1, pocketed := false, isStriped := false }

/-- Head-on pair along the x axis, one ball fast. -/
def tBallC : Ball :=
  { position := ⟨0, 0⟩, velocity := ⟨50, 0⟩, type := BallType.cue
    number := 0, pocketed := false, isStriped := false }

def tBallD : Ball :=
  { position := ⟨5, 0⟩, velocity := ⟨0, 0⟩, type := BallType.solid
    number := 1, pocketed := false, isStriped := false }

/-- For `c ≥ 0` the C comparison `sqrtf e < c` agrees with `e < c²`:
this justifies performing the pocket-radius, aim-radius and
null-gesture tests on squared distances.  `d` stands for the value
`sqrtf e` (characterised by `0 ≤ d` and `d² = e`). -/
theorem sqrt_cmp_iff (d e c : ℚ) (hd : 0 ≤ d) (hde : d ^ 2 = e) (hc : 0 ≤ c) :
    (d < c ↔ e < c ^ 2) ∧ (d ≤ c ↔ e ≤ c ^ 2) := by
  subst hde
  constructor
  · constructor
    · intro h; nlinarith
    · intro h; nlinarith
  · constructor
    · intro h; nlinarith
    · intro h; nlinarith

/-!  ## Frame and branch lemmas for the pocket scan -/

theorem detB_true_iff (g : Game) (i : ℕ) :
    detB g i = true ↔ (g.balls i).pocketed = false ∧ inAnyPocket (g.balls i).position = true := by
  simp [detB]

theorem markPocketed_balls_ne (g : Game) (i j : ℕ) (h : j ≠ i) :
    (markPocketed g i).balls j = g.balls j := by
  simp [markPocketed, updBall, h]

theorem markPocketed_balls_type (g : Game) (i j : ℕ) :
    ((markPocketed g i).balls j).type = (g.balls j).type := by
  by_cases h : j = i <;> simp [markPocketed, updBall, h]

theorem markCue_balls_ne (g : Game) (j : ℕ) (h : j ≠ 0) :
    (markCue g).balls j = g.balls j := by
  simp [markCue, markPocketed, updBall, h]

theorem markCue_balls_type (g : Game) (j : ℕ) :
    ((markCue g).balls j).type = (g.balls j).type := by
  by_cases h : j = 0 <;> simp [markCue, markPocketed, updBall, h]

theorem getPlayer_congr (g1 g2 : Game) (h : g1.players = g2.players) (i : ℕ) :
    getPlayer g1 i = getPlayer g2 i := by
  unfold getPlayer; rw [h]

theorem eightWin_congr (g1 g2 : Game) (hp : g1.players = g2.players)
    (hc : g1.currentPlayer = g2.currentPlayer) : eightWin g1 = eightWin g2 := by
  unfold eightWin
  rw [hc, getPlayer_congr g1 g2 hp]

theorem stdType_eq_eight_iff (i : ℕ) : stdType i = BallType.eight ↔ i = 8 := by
  unfold stdType
  split_ifs with h1 h2 h3 <;> simp_all

theorem list_any_congr {l : List ℕ} {f g : ℕ → Bool} (h : ∀ x ∈ l, f x = g x) :
    l.any f = l.any g := by
  induction l with
  | nil => rfl
  | cons x xs ih =>
    simp only [List.any_cons]
    rw [h x (by simp), ih (fun y hy => h y (by simp [hy]))]

namespace Upd

theorem processBall_skip (g : Game) (c a : Bool) (i : ℕ) (h : detB g i = false) :
    processBall g c a i = StepRes.cont g c a := by
  by_cases hp : (g.balls i).pocketed
  · simp [processBall, hp]
  · have hin : inAnyPocket (g.balls i).position = false := by
      simp [detB, hp] at h
      exact h
    simp [processBall, hp, hin]

theorem processBall_cue (g : Game) (c a : Bool) (h : detB g 0 = true) :
    processBall g c a 0 = StepRes.cont (markCue g) true true := by
  obtain ⟨hp, hin⟩ := (detB_true_iff g 0).mp h
  simp [processBall, hp, hin]

theorem processBall_group (g : Game) (c a : Bool) (i : ℕ) (hi : i ≠ 0)
    (h : detB g i = true) (ht : (g.balls i).type ≠ BallType.eight) :
    processBall g c a i = StepRes.cont (markPocketed g i) c true := by
  obtain ⟨hp, hin⟩ := (detB_true_iff g i).mp h
  simp [processBall, hp, hin, hi, ht]

theorem processBall_eight (g : Game) (c a : Bool) (i : ℕ) (hi : i ≠ 0)
    (h : detB g i = true) (ht : (g.balls i).type = BallType.eight) :
    processBall g c a i =
      StepRes.halt { markPocketed g i with
                       state := if eightWin g then GameState.won else GameState.lost } := by
  obtain ⟨hp, hin⟩ := (detB_true_iff g i).mp h
  simp [processBall, hp, hin, hi, ht]

end Upd

namespace Upd

/-- Running the scan over a segment `l` of indices that contains
neither ball 0 nor a detectable eight-ball neither halts nor touches
the players, the state, the turn or the message: it only marks the
detected balls of `l` and accumulates the `anyPocketed` flag. -/
theorem scan_segment (l : List ℕ) :
    ∀ (m : List ℕ) (g : Game) (c a : Bool), 0 ∉ l → (∀ i ∈ l, haltFree g i) →
    ∃ g1 a1, cpAux g c a (l ++ m) = cpAux g1 c a1 m ∧
      g1.players = g.players ∧
      g1.state = g.state ∧
      g1.currentPlayer = g.currentPlayer ∧
      g1.statusMessage = g.statusMessage ∧
      (∀ j, (g1.balls j).type = (g.balls j).type) ∧
      (∀ j, j ∉ l → g1.balls j = g.balls j) ∧
      a1 = (a || l.any (detB g)) := by
  induction l with
  | nil =>
    intro m g c a _ _
    exact ⟨g, a, by simp, rfl, rfl, rfl, rfl, fun j => rfl, fun j _ => rfl, by simp⟩
  | cons i tl ih =>
    intro m g c a h0 hhf
    have hi0 : i ≠ 0 := fun h => h0 (by simp [h])
    have h0tl : 0 ∉ tl := fun h => h0 (List.mem_cons_of_mem _ h)
    by_cases hd : detB g i = true
    · have ht : (g.balls i).type ≠ BallType.eight := hhf i (by simp) hd
      have hstep : cpAux g c a ((i :: tl) ++ m) = cpAux (markPocketed g i) c true (tl ++ m) := by
        simp only [List.cons_append, cpAux, processBall_group g c a i hi0 hd ht]
        rfl
      have hhf1 : ∀ j ∈ tl, haltFree (markPocketed g i) j := by
        intro j hj
        by_cases hji : j = i
        · subst hji
          intro hdet
          exfalso
          rw [detB_true_iff] at hdet
          have hpk : ((markPocketed g j).balls j).pocketed = true := by
            simp [markPocketed, updBall]
          rw [hdet.1] at hpk
          exact Bool.false_ne_true hpk
        · intro hdet
          have hbe : (markPocketed g i).balls j = g.balls j := markPocketed_balls_ne g i j hji
          have hdet2 : detB g j = true := by
            unfold detB at hdet ⊢
            rw [hbe] at hdet
            exact hdet
          rw [hbe]
          exact hhf j (by simp [hj]) hdet2
      obtain ⟨g1, a1, heq, hp, hs, hc, hm, hty, hfr, ha⟩ := ih m (markPocketed g i) c true h0tl hhf1
      refine ⟨g1, a1, by rw [hstep, heq], ?_, ?_, ?_, ?_, ?_, ?_, ?_⟩
      · rw [hp]; rfl
      · rw [hs]; rfl
      · rw [hc]; rfl
      · rw [hm]; rfl
      · intro j
        rw [hty j, markPocketed_balls_type]
      · intro j hj
        have hjtl : j ∉ tl := fun h => hj (by simp [h])
        have hji : j ≠ i := fun h => hj (by simp [h])
        rw [hfr j hjtl, markPocketed_balls_ne g i j hji]
      · rw [ha]
        simp [List.any_cons, hd]
    · have hdf : detB g i = false := by simpa using hd
      have hstep : cpAux g c a ((i :: tl) ++ m) = cpAux g c a (tl ++ m) := by
        simp only [List.cons_append, cpAux, processBall_skip g c a i hdf]
        rfl
      have hhf1 : ∀ j ∈ tl, haltFree g j := fun j hj => hhf j (by simp [hj])
      obtain ⟨g1, a1, heq, hp, hs, hc, hm, hty, hfr, ha⟩ := ih m g c a h0tl hhf1
      refine ⟨g1, a1, by rw [hstep, heq], hp, hs, hc, hm, hty, ?_, ?_⟩
      · intro j hj
        exact hfr j (fun h => hj (by simp [h]))
      · rw [ha]
        simp [List.any_cons, hdf]

/-- Case analysis on one scan step: either it continues with a state
that differs from `g` only in the `balls` array (with types intact)
and possibly the cue-respawn anchor, or it is the 8-ball `return`,
whose result state is decided by `eightWin`. -/
theorem processBall_cases (g : Game) (c a : Bool) (i : ℕ) :
    (∃ g1 c1 a1, processBall g c a i = StepRes.cont g1 c1 a1 ∧
       g1.players = g.players ∧ g1.state = g.state ∧ g1.currentPlayer = g.currentPlayer ∧
       g1.statusMessage = g.statusMessage ∧ (∀ j, (g1.balls j).type = (g.balls j).type) ∧
       (i ≠ 0 → c1 = c)) ∨
    (∃ gf, processBall g c a i = StepRes.halt gf ∧
       gf.players = g.players ∧ gf.currentPlayer = g.currentPlayer ∧
       gf.statusMessage = g.statusMessage ∧
       gf.state = (if eightWin g then GameState.won else GameState.lost) ∧
       (∀ j, (gf.balls j).type = (g.balls j).type)) := by
  by_cases hd : detB g i = true
  · by_cases hi : i = 0
    · subst hi
      rw [processBall_cue g c a hd]
      exact Or.inl ⟨markCue g, true, true, rfl, rfl, rfl, rfl, rfl, markCue_balls_type g,
        fun hne => absurd rfl hne⟩
    · by_cases ht : (g.balls i).type = BallType.eight
      · rw [processBall_eight g c a i hi hd ht]
        exact Or.inr ⟨_, rfl, rfl, rfl, rfl, rfl, markPocketed_balls_type g i⟩
      · rw [processBall_group g c a i hi hd ht]
        exact Or.inl ⟨markPocketed g i, c, true, rfl, rfl, rfl, rfl, rfl,
          markPocketed_balls_type g i, fun _ => rfl⟩
  · have hdf : detB g i = false := by simpa using hd
    rw [processBall_skip g c a i hdf]
    exact Or.inl ⟨g, c, a, rfl, rfl, rfl, rfl, rfl, fun j => rfl, fun _ => rfl⟩

/-- The scan never writes the players array (updated.c has no type
assignment and no ballsRemaining decrement anywhere in
`CheckPockets`). -/
theorem cpAux_players (l : List ℕ) : ∀ (g : Game) (c a : Bool),
    (cpAux g c a l).players = g.players := by
  induction l with
  | nil =>
    intro g c a
    unfold cpAux scanFinish
    split_ifs <;> simp [applyScratch]
  | cons i tl ih =>
    intro g c a
    rcases processBall_cases g c a i with ⟨g1, c1, a1, heq, hp, -⟩ | ⟨gf, heq, hp, -⟩
    · rw [show cpAux g c a (i :: tl) = cpAux g1 c1 a1 tl by simp [cpAux, heq]]
      rw [ih g1 c1 a1, hp]
    · rw [show cpAux g c a (i :: tl) = gf by simp [cpAux, heq]]
      exact hp

/-- The scan never changes any ball's `type`. -/
theorem cpAux_types (l : List ℕ) : ∀ (g : Game) (c a : Bool) (j : ℕ),
    ((cpAux g c a l).balls j).type = (g.balls j).type := by
  induction l with
  | nil =>
    intro g c a j
    unfold cpAux scanFinish
    split_ifs <;> simp [applyScratch]
  | cons i tl ih =>
    intro g c a j
    rcases processBall_cases g c a i with ⟨g1, c1, a1, heq, -, -, -, -, hty, -⟩ | ⟨gf, heq, -, -, -, -, hty⟩
    · rw [show cpAux g c a (i :: tl) = cpAux g1 c1 a1 tl by simp [cpAux, heq]]
      rw [ih g1 c1 a1 j, hty j]
    · rw [show cpAux g c a (i :: tl) = gf by simp [cpAux, heq]]
      exact hty j

end Upd

namespace Upd

/-- Processing ball 0 (always first, nothing returns before it): it
either records the cue scratch or passes through; the flags after it
are exactly `detB g 0`. -/
theorem scan_step0 (g : Game) (l : List ℕ) :
    ∃ g0 c0 a0, cpAux g false false (0 :: l) = cpAux g0 c0 a0 l ∧
      g0.players = g.players ∧ g0.state = g.state ∧ g0.currentPlayer = g.currentPlayer ∧
      g0.statusMessage = g.statusMessage ∧ (∀ j, j ≠ 0 → g0.balls j = g.balls j) ∧
      (∀ j, (g0.balls j).type = (g.balls j).type) ∧ c0 = detB g 0 ∧ a0 = detB g 0 := by
  by_cases hd : detB g 0 = true
  · exact ⟨markCue g, true, true, by simp [cpAux, processBall_cue g false false hd], rfl, rfl,
      rfl, rfl, fun j hj => markCue_balls_ne g j hj, markCue_balls_type g, hd.symm, hd.symm⟩
  · have hdf : detB g 0 = false := by simpa using hd
    exact ⟨g, false, false, by simp [cpAux, processBall_skip g false false 0 hdf], rfl, rfl,
      rfl, rfl, fun j _ => rfl, fun j => rfl, hdf.symm, hdf.symm⟩

end Upd

/-- With both players still unassigned, the win test of the 8-ball
branch is false. -/
theorem eightWin_none (g : Game) (h1 : g.players.1.type = PlayerType.none)
    (h2 : g.players.2.type = PlayerType.none) : eightWin g = false := by
  by_cases hcp : g.currentPlayer = 0 <;> simp [eightWin, getPlayer, hcp, h1, h2]

namespace Upd

/-- With both players unassigned and the state not already `GAME_WON`,
no scan can produce `GAME_WON` (the only write of `GAME_WON` in
updated.c is the 8-ball branch, whose test needs an assigned type). -/
theorem scan_not_won (l : List ℕ) : ∀ (g : Game) (c a : Bool),
    g.players.1.type = PlayerType.none → g.players.2.type = PlayerType.none →
    g.state ≠ GameState.won → (cpAux g c a l).state ≠ GameState.won := by
  induction l with
  | nil =>
    intro g c a h1 h2 hs
    unfold cpAux scanFinish
    split_ifs <;> simp [applyScratch] <;> exact hs
  | cons i tl ih =>
    intro g c a h1 h2 hs
    rcases processBall_cases g c a i with ⟨g1, c1, a1, heq, hp, hst, -, -, -, -⟩ |
      ⟨gf, heq, -, -, -, hst, -⟩
    · rw [show cpAux g c a (i :: tl) = cpAux g1 c1 a1 tl by simp [cpAux, heq]]
      exact ih g1 c1 a1 (by rw [hp]; exact h1) (by rw [hp]; exact h2) (by rw [hst]; exact hs)
    · rw [show cpAux g c a (i :: tl) = gf by simp [cpAux, heq]]
      rw [hst, eightWin_none g h1 h2]
      simp
  
/-- If ball 0 is not in the list and the cue flag is down, the scan
cannot end in the scratch state unless it started there: only
`applyScratch` (guarded by the cue flag) writes `GAME_SCRATCH`. -/
theorem scan_no_cue_no_scratch (l : List ℕ) : ∀ (g : Game) (a : Bool), 0 ∉ l →
    (cpAux g false a l).state = GameState.scratch → g.state = GameState.scratch := by
  induction l with
  | nil =>
    intro g a _ h
    unfold cpAux scanFinish at h
    simp only [Bool.false_eq_true, if_false] at h
    split_ifs at h
    · simpa using h
    · exact h
  | cons i tl ih =>
    intro g a h0 h
    have hi0 : i ≠ 0 := fun hh => h0 (by simp [hh])
    rcases processBall_cases g false a i with ⟨g1, c1, a1, heq, -, hst, -, -, -, hc1⟩ |
      ⟨gf, heq, -, -, -, hst, -⟩
    · rw [show cpAux g false a (i :: tl) = cpAux g1 c1 a1 tl by simp [cpAux, heq]] at h
      rw [hc1 hi0] at h
      rw [← hst]
      exact ih g1 a1 (fun hh => h0 (by simp [hh])) h
    · rw [show cpAux g false a (i :: tl) = gf by simp [cpAux, heq]] at h
      rw [hst] at h
      revert h
      split_ifs <;> simp

/-- Core of the 8-ball short circuit of updated.c `CheckPockets`: if
this scan sinks the 8-ball, the final state is decided by `eightWin`
on the entry state, and the scan returns at once — the balls after
index 8, the status message, the turn and the players are all left
untouched. -/
theorem eight_scan_core (g : Game) (hWF : WF g) (h8 : eightDet g) :
    (CheckPockets g).state = (if eightWin g then GameState.won else GameState.lost) ∧
    (∀ j, 8 < j → (CheckPockets g).balls j = g.balls j) ∧
    (CheckPockets g).statusMessage = g.statusMessage ∧
    (CheckPockets g).currentPlayer = g.currentPlayer ∧
    (CheckPockets g).players = g.players := by
  obtain ⟨g0, c0, a0, heq0, hp0, hs0, hc0, hm0, hb0, hty0, -, -⟩ :=
    scan_step0 g ([1, 2, 3, 4, 5, 6, 7] ++ (8 :: [9, 10, 11, 12, 13, 14, 15]))
  have hhf : ∀ i ∈ ([1, 2, 3, 4, 5, 6, 7] : List ℕ), haltFree g0 i := by
    intro i hi
    have hb : 1 ≤ i ∧ i ≤ 7 := by fin_cases hi <;> omega
    intro _
    rw [hty0 i, hWF i (by omega), Ne, stdType_eq_eight_iff]
    omega
  obtain ⟨g1, a1, heq1, hp1, hs1, hc1, hm1, hty1, hfr1, ha1⟩ :=
    scan_segment [1, 2, 3, 4, 5, 6, 7] (8 :: [9, 10, 11, 12, 13, 14, 15]) g0 c0 a0
      (by decide) hhf
  have hb8 : g1.balls 8 = g.balls 8 := by
    rw [hfr1 8 (by decide), hb0 8 (by decide)]
  have hd8 : detB g1 8 = true := by
    have h8d : detB g 8 = true := h8
    unfold detB at h8d ⊢
    rw [hb8]
    exact h8d
  have ht8 : (g1.balls 8).type = BallType.eight := by
    rw [hb8, hWF 8 (by omega)]
    rfl
  have hstep8 : cpAux g1 c0 a1 (8 :: [9, 10, 11, 12, 13, 14, 15]) =
      { markPocketed g1 8 with
          state := if eightWin g1 then GameState.won else GameState.lost } := by
    simp [cpAux, processBall_eight g1 c0 a1 8 (by decide) hd8 ht8]
  have hwin : eightWin g1 = eightWin g :=
    eightWin_congr g1 g (by rw [hp1, hp0]) (by rw [hc1, hc0])
  have hres : CheckPockets g =
      { markPocketed g1 8 with
          state := if eightWin g1 then GameState.won else GameState.lost } := by
    unfold CheckPockets
    calc cpAux g false false scanIdx
        = cpAux g0 c0 a0 ([1, 2, 3, 4, 5, 6, 7] ++ (8 :: [9, 10, 11, 12, 13, 14, 15])) := heq0
      _ = cpAux g1 c0 a1 (8 :: [9, 10, 11, 12, 13, 14, 15]) := heq1
      _ = _ := hstep8
  rw [hres]
  refine ⟨?_, ?_, ?_, ?_, ?_⟩
  · show (if eightWin g1 then GameState.won else GameState.lost)
        = (if eightWin g then GameState.won else GameState.lost)
    rw [hwin]
  · intro j hj
    have hj8 : j ≠ 8 := by omega
    have hjmem : j ∉ ([1, 2, 3, 4, 5, 6, 7] : List ℕ) := by
      intro hmem
      fin_cases hmem <;> omega
    have hj0 : j ≠ 0 := by omega
    calc ({ markPocketed g1 8 with
            state := if eightWin g1 then GameState.won else GameState.lost }).balls j
        = (markPocketed g1 8).balls j := rfl
      _ = g1.balls j := markPocketed_balls_ne g1 8 j hj8
      _ = g0.balls j := hfr1 j hjmem
      _ = g.balls j := hb0 j hj0
  · show g1.statusMessage = g.statusMessage
    rw [hm1, hm0]
  · show g1.currentPlayer = g.currentPlayer
    rw [hc1, hc0]
  · show g1.players = g.players
    rw [hp1, hp0]

/-- Core of a scan that does not sink the 8-ball: the loop completes
and the result is `scanFinish` applied to a state agreeing with the
entry state on players, state, turn and message, with the cue flag
`detB g 0` and the any-pocketed flag `scanIdx.any (detB g)`. -/
theorem noeight_scan_core (g : Game) (hWF : WF g) (h8 : ¬ eightDet g) :
    ∃ g1, CheckPockets g = scanFinish g1 (detB g 0) (scanIdx.any (detB g)) ∧
      g1.players = g.players ∧ g1.state = g.state ∧ g1.currentPlayer = g.currentPlayer ∧
      g1.statusMessage = g.statusMessage := by
  obtain ⟨g0, c0, a0, heq0, hp0, hs0, hc0, hm0, hb0, hty0, hcd, had⟩ :=
    scan_step0 g [1, 2, 3, 4, 5, 6, 7, 8, 9, 10, 11, 12, 13, 14, 15]
  have hdb : ∀ j, j ≠ 0 → detB g0 j = detB g j := by
    intro j hj
    unfold detB
    rw [hb0 j hj]
  have hhf : ∀ i ∈ ([1, 2, 3, 4, 5, 6, 7, 8, 9, 10, 11, 12, 13, 14, 15] : List ℕ),
      haltFree g0 i := by
    intro i hi
    have hb : 1 ≤ i ∧ i ≤ 15 := by fin_cases hi <;> omega
    intro hdet
    rw [hty0 i, hWF i (by omega), Ne, stdType_eq_eight_iff]
    intro hi8
    subst hi8
    rw [hdb 8 (by omega)] at hdet
    exact h8 hdet
  obtain ⟨g1, a1, heq1, hp1, hs1, hc1, hm1, hty1, hfr1, ha1⟩ :=
    scan_segment [1, 2, 3, 4, 5, 6, 7, 8, 9, 10, 11, 12, 13, 14, 15] [] g0 c0 a0
      (by decide) hhf
  refine ⟨g1, ?_, by rw [hp1, hp0], by rw [hs1, hs0], by rw [hc1, hc0], by rw [hm1, hm0]⟩
  have hres : CheckPockets g = cpAux g1 c0 a1 [] := by
    unfold CheckPockets
    calc cpAux g false false scanIdx
        = cpAux g0 c0 a0 [1, 2, 3, 4, 5, 6, 7, 8, 9, 10, 11, 12, 13, 14, 15] := heq0
      _ = cpAux g0 c0 a0 ([1, 2, 3, 4, 5, 6, 7, 8, 9, 10, 11, 12, 13, 14, 15] ++ []) := by
          rw [List.append_nil]
      _ = cpAux g1 c0 a1 [] := heq1
  have hany : a1 = scanIdx.any (detB g) := by
    rw [ha1, had]
    have hcongr : ([1, 2, 3, 4, 5, 6, 7, 8, 9, 10, 11, 12, 13, 14, 15] : List ℕ).any (detB g0)
        = ([1, 2, 3, 4, 5, 6, 7, 8, 9, 10, 11, 12, 13, 14, 15] : List ℕ).any (detB g) := by
      apply list_any_congr
      intro x hx
      have : x ≠ 0 := by fin_cases hx <;> omega
      exact hdb x this
    rw [hcongr]
    rfl
  rw [hres, hany, hcd]
  rfl

end Upd

namespace Prev

/-- `decOwner` writes only a `ballsRemaining` field: both type fields,
the assignment flag and the break-shot flag are untouched. -/
theorem decOwner_frame (g : Game) (t : BallType) :
    (decOwner g t).players.1.type = g.players.1.type ∧
    (decOwner g t).players.2.type = g.players.2.type ∧
    (decOwner g t).assignedTypes = g.assignedTypes ∧
    (decOwner g t).firstShot = g.firstShot := by
  unfold decOwner
  rcases hpt : playerIndexForType g t with - | o
  · exact ⟨rfl, rfl, rfl, rfl⟩
  · simp only []
    split_ifs with h
    · unfold setPlayerRemain
      split_ifs with ho <;> exact ⟨rfl, rfl, rfl, rfl⟩
    · exact ⟨rfl, rfl, rfl, rfl⟩

theorem processBallP_skip (g : Game) (c a : Bool) (i : ℕ) (h : detB g i = false) :
    processBall g c a i = StepRes.cont g c a := by
  by_cases hp : (g.balls i).pocketed
  · simp [processBall, hp]
  · have hin : inAnyPocket (g.balls i).position = false := by
      simp [detB, hp] at h
      exact h
    simp [processBall, hp, hin]

theorem processBallP_cue (g : Game) (c a : Bool) (h : detB g 0 = true) :
    processBall g c a 0 = StepRes.cont (markCue g) true true := by
  obtain ⟨hp, hin⟩ := (detB_true_iff g 0).mp h
  simp [processBall, hp, hin]

/-- With the break-shot flag already cleared, the assignment block of
previous.c `chkPockets` is dead: the 8-ball hit of a non-cue ball. -/
theorem processBall_eight_noFS (g : Game) (c a : Bool) (i : ℕ) (hi : i ≠ 0)
    (hd : detB g i = true) (ht : (g.balls i).type = BallType.eight)
    (hf : g.firstShot = false) :
    processBall g c a i = StepRes.halt { markPocketed g i with
        state := if eightWin (markPocketed g i) then GameState.won else GameState.lost } := by
  obtain ⟨hp, hin⟩ := (detB_true_iff g i).mp hd
  have hfs : (markPocketed g i).firstShot = false := hf
  simp [processBall, hp, hin, hi, ht, hfs]

/-- With the break-shot flag already cleared, the group-ball hit of
previous.c `chkPockets` only marks the ball and runs the owner
decrement. -/
theorem processBall_group_noFS (g : Game) (c a : Bool) (i : ℕ) (hi : i ≠ 0)
    (hd : detB g i = true) (ht : (g.balls i).type ≠ BallType.eight)
    (hf : g.firstShot = false) :
    processBall g c a i =
      StepRes.cont (decOwner (markPocketed g i) (g.balls i).type) c true := by
  obtain ⟨hp, hin⟩ := (detB_true_iff g i).mp hd
  have hfs : (markPocketed g i).firstShot = false := hf
  simp [processBall, hp, hin, hi, ht, hfs]

/-- Induction core for C9: once `firstShot` is false, no step of the
previous.c scan can write a player type or the assignment flag
(and `firstShot` itself stays false). -/
theorem processBall_cases_noFS (g : Game) (c a : Bool) (i : ℕ) (hf : g.firstShot = false) :
    (∃ g1 c1 a1, processBall g c a i = StepRes.cont g1 c1 a1 ∧
       g1.players.1.type = g.players.1.type ∧ g1.players.2.type = g.players.2.type ∧
       g1.assignedTypes = g.assignedTypes ∧ g1.firstShot = false) ∨
    (∃ gf, processBall g c a i = StepRes.halt gf ∧
       gf.players.1.type = g.players.1.type ∧ gf.players.2.type = g.players.2.type ∧
       gf.assignedTypes = g.assignedTypes) := by
  by_cases hd : detB g i = true
  · by_cases hi : i = 0
    · subst hi
      rw [processBallP_cue g c a hd]
      exact Or.inl ⟨markCue g, true, true, rfl, rfl, rfl, rfl, hf⟩
    · by_cases ht : (g.balls i).type = BallType.eight
      · rw [processBall_eight_noFS g c a i hi hd ht hf]
        exact Or.inr ⟨_, rfl, rfl, rfl, rfl⟩
      · rw [processBall_group_noFS g c a i hi hd ht hf]
        obtain ⟨ht1, ht2, has, hfs⟩ := decOwner_frame (markPocketed g i) (g.balls i).type
        exact Or.inl ⟨_, c, true, rfl, ht1, ht2, has, by rw [hfs]; exact hf⟩
  · have hdf : detB g i = false := by simpa using hd
    rw [processBallP_skip g c a i hdf]
    exact Or.inl ⟨g, c, a, rfl, rfl, rfl, rfl, hf⟩

/-- Whole-scan frame for C9: entered with `firstShot = false`,
previous.c `chkPockets` leaves both players' types and the
`assignedType` flag unchanged. -/
theorem cpAux_noFS_frame (l : List ℕ) : ∀ (g : Game) (c a : Bool), g.firstShot = false →
    (cpAux g c a l).players.1.type = g.players.1.type ∧
    (cpAux g c a l).players.2.type = g.players.2.type ∧
    (cpAux g c a l).assignedTypes = g.assignedTypes := by
  induction l with
  | nil =>
    intro g c a _
    unfold cpAux Upd.scanFinish
    split_ifs <;> exact ⟨rfl, rfl, rfl⟩
  | cons i tl ih =>
    intro g c a hf
    rcases processBall_cases_noFS g c a i hf with
      ⟨g1, c1, a1, heq, ht1, ht2, has, hf1⟩ | ⟨gf, heq, ht1, ht2, has⟩
    · rw [show cpAux g c a (i :: tl) = cpAux g1 c1 a1 tl by simp [cpAux, heq]]
      obtain ⟨k1, k2, k3⟩ := ih g1 c1 a1 hf1
      exact ⟨k1.trans ht1, k2.trans ht2, k3.trans has⟩
    · rw [show cpAux g c a (i :: tl) = gf by simp [cpAux, heq]]
      exact ⟨ht1, ht2, has⟩

end Prev

/-!  ## Physics lemmas -/

/-- `ClampBallSpeed` caps the squared speed at `maxSpeed²`: if the
characterised magnitude exceeds the cap, the rescaled vector has
squared norm exactly `maxSpeed²`; otherwise it is unchanged and
already within the cap. -/
theorem clamp_sqNorm_le (b : Ball) (mag maxSpeed : ℚ) (hm : 0 ≤ mag)
    (h : mag ^ 2 = sqNorm b.velocity) (hmax : 0 ≤ maxSpeed) :
    sqNorm (clampBallSpeedM b mag maxSpeed).velocity ≤ maxSpeed ^ 2 := by
  unfold sqNorm at h
  unfold clampBallSpeedM
  split_ifs with hgt
  · have hne : mag ≠ 0 := by
      intro h0
      rw [h0] at hgt
      exact absurd hgt (not_lt.mpr hmax)
    show (b.velocity.x / mag * maxSpeed) ^ 2 + (b.velocity.y / mag * maxSpeed) ^ 2 ≤ maxSpeed ^ 2
    have key : (b.velocity.x / mag * maxSpeed) ^ 2 + (b.velocity.y / mag * maxSpeed) ^ 2
        = maxSpeed ^ 2 := by
      field_simp
      linear_combination maxSpeed ^ 2 * h.symm
    rw [key]
  · show b.velocity.x ^ 2 + b.velocity.y ^ 2 ≤ maxSpeed ^ 2
    rw [← h]
    have hle : mag ≤ maxSpeed := not_lt.mp hgt
    nlinarith

/-- C8: for two balls whose center distance `d` exceeds the 0.0001
epsilon guard, `ResolveElasticCollision` swaps the two velocity
components along the center-to-center normal and leaves both
tangential components unchanged; consequently the sum of the two
normal components before the call equals the sum after.  (`d` is the
`sqrtf` value of the C code, characterised by `d² = sqDist`.) -/
theorem c8_elastic_swap (a b : Ball) (d : ℚ) (hd : 0.0001 < d)
    (hsq : d ^ 2 = sqDist a.position b.position) :
    dot (resolveElasticM a b d).1.velocity (collisionNormal a b d)
      = dot b.velocity (collisionNormal a b d) ∧
    dot (resolveElasticM a b d).2.velocity (collisionNormal a b d)
      = dot a.velocity (collisionNormal a b d) ∧
    dot (resolveElasticM a b d).1.velocity (collisionTangent a b d)
      = dot a.velocity (collisionTangent a b d) ∧
    dot (resolveElasticM a b d).2.velocity (collisionTangent a b d)
      = dot b.velocity (collisionTangent a b d) ∧
    dot (resolveElasticM a b d).1.velocity (collisionNormal a b d)
      + dot (resolveElasticM a b d).2.velocity (collisionNormal a b d)
      = dot a.velocity (collisionNormal a b d) + dot b.velocity (collisionNormal a b d) := by
  have hng : ¬ (d ≤ 0.0001) := not_le.mpr hd
  have hd0 : d ≠ 0 := by
    intro h0
    rw [h0] at hd
    norm_num at hd
  unfold sqDist at hsq
  have hunit : ((b.position.x - a.position.x) / d) ^ 2 + ((b.position.y - a.position.y) / d) ^ 2
      = 1 := by
    field_simp
    linear_combination hsq.symm
  simp only [resolveElasticM, collisionNormal, collisionTangent, dot, if_neg hng]
  refine ⟨?_, ?_, ?_, ?_, ?_⟩
  · linear_combination
      (b.velocity.x * ((b.position.x - a.position.x) / d)
        + b.velocity.y * ((b.position.y - a.position.y) / d)) * hunit
  · linear_combination
      (a.velocity.x * ((b.position.x - a.position.x) / d)
        + a.velocity.y * ((b.position.y - a.position.y) / d)) * hunit
  · linear_combination
      (a.velocity.x * (-((b.position.y - a.position.y) / d))
        + a.velocity.y * ((b.position.x - a.position.x) / d)) * hunit
  · linear_combination
      (b.velocity.x * (-((b.position.y - a.position.y) / d))
        + b.velocity.y * ((b.position.x - a.position.x) / d)) * hunit
  · linear_combination
      (a.velocity.x * ((b.position.x - a.position.x) / d)
        + a.velocity.y * ((b.position.y - a.position.y) / d)
        + b.velocity.x * ((b.position.x - a.position.x) / d)
        + b.velocity.y * ((b.position.y - a.position.y) / d)) * hunit

/-!  ## The updated.c reachability invariant (claim C4) -/

namespace Upd

/-- The invariant of updated.c: the players record never changes from
its `InitGame` value (no operation after `InitGame` writes a `type` or
`ballsRemaining` field), the state is never `GAME_WON`, and the rack
typing is intact. -/
def InvP (g : Game) : Prop :=
  g.players = InitGame.players ∧ g.state ≠ GameState.won ∧ WF g

theorem initGame_WF : WF InitGame := by
  intro i hi
  interval_cases i <;> rfl

theorem invP_init : InvP InitGame :=
  ⟨rfl, by decide, initGame_WF⟩

/-- Transfer of the invariant along a state with equal players, a
non-won state and preserved ball types. -/
theorem invP_mk (g g' : Game) (h : InvP g) (hpp : g'.players = g.players)
    (hst : g'.state ≠ GameState.won)
    (hb : ∀ j, (g'.balls j).type = (g.balls j).type) : InvP g' :=
  ⟨hpp.trans h.1, hst, fun i hi => (hb i).trans (h.2.2 i hi)⟩

theorem scratchInput_invP (g : Game) (inp : Input) (h : InvP g) :
    InvP (scratchInput g inp) := by
  unfold scratchInput
  split_ifs with h1 h2
  · refine invP_mk g _ h rfl (fun hh => nomatch hh) ?_
    intro j
    by_cases hj : j = 0 <;> simp [updBall, hj]
  · exact invP_mk g _ h rfl h.2.1 (fun j => rfl)
  · exact h

theorem aimPress_invP (g : Game) (inp : Input) (cp : Vec) (h : InvP g) :
    InvP (aimPress g inp cp) := by
  unfold aimPress
  split_ifs
  · exact invP_mk g _ h rfl h.2.1 (fun j => rfl)
  · exact h

theorem aimDrag_invP (g : Game) (inp : Input) (pull : ℚ) (h : InvP g) :
    InvP (aimDrag g inp pull) := by
  unfold aimDrag
  split_ifs
  · exact invP_mk g _ h rfl h.2.1 (fun j => rfl)
  · exact h

theorem aimRelease_invP (g : Game) (inp : Input) (cp sv : Vec) (h : InvP g) :
    InvP (aimRelease g inp cp sv) := by
  unfold aimRelease
  split_ifs with h1 h2
  · exact invP_mk g _ h rfl h.2.1 (fun j => rfl)
  · refine invP_mk g _ h rfl (fun hh => nomatch hh) ?_
    intro j
    by_cases hj : j = 0 <;> simp [updBall, hj]
  · exact h

theorem handleInput_invP (g : Game) (inp : Input) (pull : ℚ) (sv : Vec) (h : InvP g) :
    InvP (HandleInput g inp pull sv) := by
  unfold HandleInput
  by_cases h1 : inp.keyR = true
  · rw [if_pos h1]
    exact invP_init
  · rw [if_neg h1]
    by_cases h2 : g.state = GameState.scratch
    · rw [if_pos h2]
      exact scratchInput_invP g inp h
    · rw [if_neg h2]
      by_cases h3 : g.ballsMoving = true
      · rw [if_pos h3]
        exact h
      · rw [if_neg h3]
        exact aimRelease_invP _ inp _ sv (aimDrag_invP _ inp pull (aimPress_invP g inp _ h))

theorem recoilStep_invP (g : Game) (h : InvP g) : InvP (recoilStep g) := by
  unfold recoilStep
  dsimp only
  split_ifs
  all_goals first | exact ⟨h.1, h.2.1, h.2.2⟩ | exact h

theorem physApply_invP (f : ℕ → Ball → Vec × Vec) (g : Game) (h : InvP g) :
    InvP (physApply f g) := by
  refine invP_mk g _ h rfl h.2.1 ?_
  intro j
  unfold physApply
  by_cases hp : (g.balls j).pocketed <;> simp [hp]

theorem checkPockets_invP (g : Game) (h : InvP g) : InvP (CheckPockets g) := by
  obtain ⟨hp, hs, hw⟩ := h
  have h1 : g.players.1.type = PlayerType.none := by rw [hp]; rfl
  have h2 : g.players.2.type = PlayerType.none := by rw [hp]; rfl
  exact ⟨(cpAux_players scanIdx g false false).trans hp,
    scan_not_won scanIdx g false false h1 h2 hs,
    fun i hi => (cpAux_types scanIdx g false false i).trans (hw i hi)⟩

theorem checkWinCondition_invP (g : Game) (h : InvP g) : InvP (checkWinCondition g) := by
  unfold checkWinCondition
  dsimp only
  split_ifs
  · exact invP_mk g _ h rfl h.2.1 (fun j => rfl)
  · exact h

theorem nextTurn_invP (g : Game) (h : InvP g) : InvP (nextTurn g) :=
  invP_mk g _ h rfl h.2.1 (fun j => rfl)

theorem updateGameStep_invP (g : Game) (inp : Input) (pull : ℚ) (sv : Vec)
    (f : ℕ → Ball → Vec × Vec) (h : InvP g) :
    InvP (UpdateGameStep g inp pull sv f) := by
  have h2 : InvP (recoilStep (HandleInput g inp pull sv)) :=
    recoilStep_invP _ (handleInput_invP g inp pull sv h)
  have h3 : InvP (CheckPockets (physApply f (recoilStep (HandleInput g inp pull sv)))) :=
    checkPockets_invP _ (physApply_invP f _ h2)
  unfold UpdateGameStep UpdatePhysicsStep
  dsimp only
  split_ifs
  all_goals
    first
      | exact h2
      | exact ⟨h3.1, h3.2.1, h3.2.2⟩
      | exact nextTurn_invP _ (checkWinCondition_invP _ ⟨h3.1, h3.2.1, h3.2.2⟩)
      | exact checkWinCondition_invP _ ⟨h3.1, h3.2.1, h3.2.2⟩

/-- Every reachable state of updated.c satisfies the invariant. -/
theorem reachable_invP (g : Game) (hr : Reachable g) : InvP g := by
  induction hr with
  | init => exact invP_init
  | step g inp pull sv f _ ih => exact updateGameStep_invP g inp pull sv f ih

end Upd

/-!  ## Claim theorems, witnesses, counterexamples

Concrete evaluations below go through the kernel (`decide`); the
arithmetic definitions of `Rat` in the library are marked irreducible
for elaboration purposes only, so reduction is re-enabled here. -/

set_option allowUnsafeReducibility true
attribute [local semireducible] Rat.mul Rat.add Rat.sub Rat.neg Rat.inv Rat.div Rat.ofScientific

/-- The 8-ball win test of both files, rewritten in the phrasing of the
specification: the current player has an assigned group (Solids or
Stripes) whose remaining count is zero. -/
theorem eightWin_eq_true_iff (g : Game) :
    eightWin g = true ↔
      (((getPlayer g g.currentPlayer).type = PlayerType.solids ∨
        (getPlayer g g.currentPlayer).type = PlayerType.stripes) ∧
       (getPlayer g g.currentPlayer).ballsRemaining = 0) := by
  unfold eightWin
  simp only [decide_eq_true_eq]
  tauto

/-- C1: when the pocket scan detects the 8-ball inside a pocket
capture radius, it immediately sets the state to Won exactly if the
current player holds an assigned group (Solids or Stripes) with zero
balls remaining at that moment, and to Lost otherwise (in particular
when no group is assigned yet); and it returns at once — the balls
after index 8 are not processed, and neither the status message nor
the turn is touched in that scan. -/
theorem c1_eight_ball_short_circuit (g : Game) (hWF : WF g) (h8 : eightDet g) :
    (Upd.CheckPockets g).state =
      (if ((getPlayer g g.currentPlayer).type = PlayerType.solids ∨
           (getPlayer g g.currentPlayer).type = PlayerType.stripes) ∧
          (getPlayer g g.currentPlayer).ballsRemaining = 0
       then GameState.won else GameState.lost) ∧
    (∀ j, 8 < j → (Upd.CheckPockets g).balls j = g.balls j) ∧
    (Upd.CheckPockets g).statusMessage = g.statusMessage ∧
    (Upd.CheckPockets g).currentPlayer = g.currentPlayer := by
  obtain ⟨h1, h2, h3, h4, -⟩ := Upd.eight_scan_core g hWF h8
  refine ⟨?_, h2, h3, h4⟩
  rw [h1]
  by_cases hw : eightWin g = true
  · rw [if_pos hw, if_pos ((eightWin_eq_true_iff g).mp hw)]
  · have hwf : eightWin g = false := by simpa using hw
    rw [hwf, if_neg (fun hc => hw ((eightWin_eq_true_iff g).mpr hc))]
    rfl

theorem c1_witness :
    (Upd.CheckPockets tEight).state = GameState.lost ∧
    (Upd.CheckPockets tEight).balls 9 = tEight.balls 9 := by
  have h := c1_eight_ball_short_circuit tEight (by decide) (by decide)
  refine ⟨?_, h.2.1 9 (by omega)⟩
  rw [h.1, if_neg (by decide)]

/-- C2 (code evaluated at the failing input): on a fresh break state
with solid ball 1 sitting in a pocket, updated.c `CheckPockets`
pockets the ball yet leaves both players Unassigned — it contains no
assignment code at all — while previous.c `chkPockets` on the very
same state performs exactly the assignment the claim describes. -/
theorem c2_code_eval :
    tSolidPocket.firstShot = true ∧ tSolidPocket.assignedTypes = false ∧
    tSolidPocket.players.1.type = PlayerType.none ∧
    tSolidPocket.players.2.type = PlayerType.none ∧
    ((Upd.CheckPockets tSolidPocket).balls 1).pocketed = true ∧
    (Upd.CheckPockets tSolidPocket).players.1.type = PlayerType.none ∧
    (Upd.CheckPockets tSolidPocket).players.2.type = PlayerType.none ∧
    (Upd.CheckPockets tSolidPocket).assignedTypes = false ∧
    (Prev.chkPockets tSolidPocket).players.1.type = PlayerType.solids ∧
    (Prev.chkPockets tSolidPocket).players.2.type = PlayerType.stripes ∧
    (Prev.chkPockets tSolidPocket).assignedTypes = true := by decide

/-- C3 (code evaluated at the failing input): both files start each
player at `ballsRemaining = 7`; but when a pocketed ball of an
assigned group reaches updated.c `CheckPockets` the count is NOT
decremented (the decrement exists only in previous.c, which takes
5 to 4 on the same state). -/
theorem c3_code_eval :
    Upd.InitGame.players.1.ballsRemaining = 7 ∧
    Upd.InitGame.players.2.ballsRemaining = 7 ∧
    Prev.initGame.players.1.ballsRemaining = 7 ∧
    Prev.initGame.players.2.ballsRemaining = 7 ∧
    tAssignedPocket.players.1.type = PlayerType.solids ∧
    tAssignedPocket.players.1.ballsRemaining = 5 ∧
    (tAssignedPocket.balls 3).type = BallType.solid ∧
    ((Upd.CheckPockets tAssignedPocket).balls 3).pocketed = true ∧
    (Upd.CheckPockets tAssignedPocket).players.1.ballsRemaining = 5 ∧
    (Prev.chkPockets tAssignedPocket).players.1.ballsRemaining = 4 := by decide

/-- C4: updated.c never writes a player's `type` or `ballsRemaining`
after `InitGame` — `CheckPockets` in particular never writes the
players record at all — so in every reachable state both players keep
`ballsRemaining = 7` and `type = PLAYER_NONE`, and an 8-ball pocketing
always produces `GAME_LOST`; `GAME_WON` is unreachable. -/
theorem c4_updated_players_frozen :
    (∀ g : Game, (Upd.CheckPockets g).players = g.players) ∧
    (∀ g : Game, Upd.Reachable g →
      g.players = Upd.InitGame.players ∧
      g.players.1.ballsRemaining = 7 ∧ g.players.1.type = PlayerType.none ∧
      g.players.2.ballsRemaining = 7 ∧ g.players.2.type = PlayerType.none ∧
      g.state ≠ GameState.won ∧
      (eightDet g → (Upd.CheckPockets g).state = GameState.lost)) := by
  constructor
  · exact fun g => Upd.cpAux_players scanIdx g false false
  · intro g hr
    obtain ⟨hp, hs, hw⟩ := Upd.reachable_invP g hr
    refine ⟨hp, by rw [hp]; rfl, by rw [hp]; rfl, by rw [hp]; rfl, by rw [hp]; rfl, hs, ?_⟩
    intro h8
    have h1 := (Upd.eight_scan_core g hw h8).1
    rw [h1, eightWin_none g (by rw [hp]; rfl) (by rw [hp]; rfl)]
    rfl

theorem c4_witness :
    Upd.InitGame.players.1.ballsRemaining = 7 ∧
    Upd.InitGame.players.1.type = PlayerType.none ∧
    Upd.InitGame.state ≠ GameState.won := by
  have h := c4_updated_players_frozen.2 Upd.InitGame Upd.Reachable.init
  exact ⟨h.2.1, h.2.2.1, h.2.2.2.2.2.1⟩

/-- C5 counterexample: with the cue ball and the 8-ball each inside a
pocket in the same tick, the scan does pocket the cue ball, yet the
8-ball return skips the scratch transition entirely: the state becomes
Lost, not Scratch, and the turn does not flip — refuting the claimed
"exactly when the cue ball is pocketed in a tick". -/
theorem c5_counterexample :
    detB tCueEight 0 = true ∧
    ((Upd.CheckPockets tCueEight).balls 0).pocketed = true ∧
    (Upd.CheckPockets tCueEight).state = GameState.lost ∧
    (Upd.CheckPockets tCueEight).state ≠ GameState.scratch ∧
    (Upd.CheckPockets tCueEight).currentPlayer = tCueEight.currentPlayer := by decide

/-- C5 (amended): the state becomes Scratch and `currentPlayer` flips
to the opponent exactly when the cue ball is pocketed during the scan
AND the 8-ball is not sunk in that same scan (an 8-ball sink returns
immediately and skips the scratch transition); `ApplyScratch` itself
writes the scratch status message when it runs. -/
theorem c5_scratch_characterisation (g : Game) (hWF : WF g) :
    (cueDet g → ¬ eightDet g →
      (Upd.CheckPockets g).state = GameState.scratch ∧
      (Upd.CheckPockets g).currentPlayer = 1 - g.currentPlayer) ∧
    ((Upd.CheckPockets g).state = GameState.scratch →
      g.state = GameState.scratch ∨ cueDet g) ∧
    (∀ h : Game, (applyScratch h).state = GameState.scratch ∧
      (applyScratch h).statusMessage = Msg.scratch ∧
      (applyScratch h).currentPlayer = 1 - h.currentPlayer) := by
  refine ⟨?_, ?_, fun h => ⟨rfl, rfl, rfl⟩⟩
  · intro hc h8
    obtain ⟨g1, heq, hp1, hs1, hc1, hm1⟩ := Upd.noeight_scan_core g hWF h8
    rw [heq, hc]
    unfold Upd.scanFinish
    dsimp only
    rw [if_pos rfl]
    split_ifs with ha
    · exact ⟨rfl, by show 1 - g1.currentPlayer = 1 - g.currentPlayer; rw [hc1]⟩
    · exact ⟨rfl, by show 1 - g1.currentPlayer = 1 - g.currentPlayer; rw [hc1]⟩
  · intro hsc
    by_cases hc : detB g 0 = true
    · exact Or.inr hc
    · left
      have hdf : detB g 0 = false := by simpa using hc
      have hstep : Upd.CheckPockets g =
          Upd.cpAux g false false [1, 2, 3, 4, 5, 6, 7, 8, 9, 10, 11, 12, 13, 14, 15] := by
        unfold Upd.CheckPockets
        show Upd.cpAux g false false
          (0 :: [1, 2, 3, 4, 5, 6, 7, 8, 9, 10, 11, 12, 13, 14, 15]) = _
        simp [Upd.cpAux, Upd.processBall_skip g false false 0 hdf]
      rw [hstep] at hsc
      exact Upd.scan_no_cue_no_scratch [1, 2, 3, 4, 5, 6, 7, 8, 9, 10, 11, 12, 13, 14, 15]
        g false (by decide) hsc

theorem c5_witness :
    (Upd.CheckPockets tCuePocket).state = GameState.scratch ∧
    (Upd.CheckPockets tCuePocket).currentPlayer = 1 - tCuePocket.currentPlayer := by
  exact (c5_scratch_characterisation tCuePocket (by decide)).1 (by decide) (by decide)

/-- C6 counterexample: the cue ball alone is pocketed; ApplyScratch
has already swapped the turn from player 0 to player 1 when the
narration is written, so the final message names Player 2 — the
opponent — not the player (Player 1) who had the turn at
tick-processing time, as the claim asserts. -/
theorem c6_counterexample :
    tCuePocket.currentPlayer = 0 ∧
    (getPlayer tCuePocket 0).name = "Player 1" ∧
    (Upd.CheckPockets tCuePocket).statusMessage = Msg.pocketedBy "Player 2" ∧
    (Upd.CheckPockets tCuePocket).statusMessage ≠ Msg.pocketedBy "Player 1" := by decide

/-- The after-loop narration when the cue was pocketed: written on the
state `applyScratch` already produced. -/
theorem scanFinish_cue_any (g1 : Game) :
    Upd.scanFinish g1 true true =
      { applyScratch g1 with
          statusMessage :=
            Msg.pocketedBy (getPlayer (applyScratch g1) (applyScratch g1).currentPlayer).name } := by
  simp [Upd.scanFinish]

/-- The after-loop narration without a scratch. -/
theorem scanFinish_nocue_any (g1 : Game) :
    Upd.scanFinish g1 false true =
      { g1 with statusMessage := Msg.pocketedBy (getPlayer g1 g1.currentPlayer).name } := by
  simp [Upd.scanFinish]

/-- C6 (amended): when at least one ball is pocketed and the 8-ball is
not sunk, the end-of-scan status message names the player holding the
turn AFTER the scratch processing of that same scan: the shooter when
the cue was not pocketed, but the opponent when a cue-ball scratch in
that tick has already swapped `currentPlayer`. -/
theorem c6_message_after_scratch (g : Game) (hWF : WF g)
    (hAny : scanIdx.any (detB g) = true) (h8 : ¬ eightDet g) :
    (Upd.CheckPockets g).statusMessage =
      Msg.pocketedBy (getPlayer g (Upd.CheckPockets g).currentPlayer).name ∧
    (cueDet g → (Upd.CheckPockets g).currentPlayer = 1 - g.currentPlayer) ∧
    (¬ cueDet g → (Upd.CheckPockets g).currentPlayer = g.currentPlayer) := by
  obtain ⟨g1, heq, hp1, hs1, hc1, hm1⟩ := Upd.noeight_scan_core g hWF h8
  rw [heq, hAny]
  by_cases hc : detB g 0 = true
  · rw [hc, scanFinish_cue_any]
    have hpl : (applyScratch g1).players = g.players := by
      show g1.players = g.players
      rw [hp1]
    refine ⟨?_, fun _ => ?_, fun hnc => absurd hc hnc⟩
    · show Msg.pocketedBy (getPlayer (applyScratch g1) (applyScratch g1).currentPlayer).name
        = Msg.pocketedBy (getPlayer g (applyScratch g1).currentPlayer).name
      rw [getPlayer_congr (applyScratch g1) g hpl]
    · show (applyScratch g1).currentPlayer = 1 - g.currentPlayer
      show 1 - g1.currentPlayer = 1 - g.currentPlayer
      rw [hc1]
  · have hdf : detB g 0 = false := by simpa using hc
    rw [hdf, scanFinish_nocue_any]
    refine ⟨?_, fun hcue => absurd hcue hc, fun _ => ?_⟩
    · show Msg.pocketedBy (getPlayer g1 g1.currentPlayer).name
        = Msg.pocketedBy (getPlayer g g1.currentPlayer).name
      rw [getPlayer_congr g1 g hp1]
    · show g1.currentPlayer = g.currentPlayer
      exact hc1

theorem c6_witness :
    (Upd.CheckPockets tSolidPocket).statusMessage =
      Msg.pocketedBy (getPlayer tSolidPocket (Upd.CheckPockets tSolidPocket).currentPlayer).name := by
  exact (c6_message_after_scratch tSolidPocket (by decide) (by decide) (by decide)).1

/-- C7: for every ball, immediately after the motion-integration pass
of `UpdatePhysics` (whose per-ball body is `integrateBall` followed by
`ClampBallSpeed`) and immediately after collision resolution in
`CheckCollisions` (`ResolveElasticCollision` followed by the two
`ClampBallSpeed` calls), the velocity magnitude is at most
MAX_BALL_SPEED = 26: the squared speed is at most 676, equivalently
any magnitude value characterising the result is at most 26.  The
`mag` arguments stand for the `sqrtf` values the C code computes. -/
theorem c7_speed_clamped :
    (∀ (b : Ball) (mag : ℚ), 0 ≤ mag → mag ^ 2 = sqNorm (integrateBall b).velocity →
       sqNorm (moveBall b mag).velocity ≤ 676 ∧
       (∀ m2 : ℚ, 0 ≤ m2 → m2 ^ 2 = sqNorm (moveBall b mag).velocity → m2 ≤ 26)) ∧
    (∀ (a b : Ball) (d magA magB : ℚ),
       0 ≤ magA → magA ^ 2 = sqNorm (resolveElasticM a b d).1.velocity →
       0 ≤ magB → magB ^ 2 = sqNorm (resolveElasticM a b d).2.velocity →
       sqNorm (collideResolve a b d magA magB).1.velocity ≤ 676 ∧
       sqNorm (collideResolve a b d magA magB).2.velocity ≤ 676) := by
  constructor
  · intro b mag hm h
    have hc := clamp_sqNorm_le (integrateBall b) mag 26 hm h (by norm_num)
    rw [show ((26 : ℚ) ^ 2 = 676) from by norm_num] at hc
    refine ⟨hc, ?_⟩
    intro m2 hm2 h2
    unfold moveBall at h2
    nlinarith [hc, h2, hm2, sq_nonneg (m2 - 26), sq_nonneg (m2 + 26)]
  · intro a b d magA magB hA hsA hB hsB
    constructor
    · have hc := clamp_sqNorm_le (resolveElasticM a b d).1 magA 26 hA hsA (by norm_num)
      rw [show ((26 : ℚ) ^ 2 = 676) from by norm_num] at hc
      exact hc
    · have hc := clamp_sqNorm_le (resolveElasticM a b d).2 magB 26 hB hsB (by norm_num)
      rw [show ((26 : ℚ) ^ 2 = 676) from by norm_num] at hc
      exact hc

theorem c7_witness :
    sqNorm (moveBall tBallFast 39.4).velocity ≤ 676 ∧
    sqNorm (collideResolve tBallC tBallD 5 0 50).2.velocity ≤ 676 := by
  constructor
  · exact (c7_speed_clamped.1 tBallFast 39.4 (by norm_num) (by decide)).1
  · exact (c7_speed_clamped.2 tBallC tBallD 5 0 50 (by norm_num) (by decide)
      (by norm_num) (by decide)).2

theorem c8_witness :
    dot (resolveElasticM tBallA tBallB 5).1.velocity (collisionNormal tBallA tBallB 5)
        = dot tBallB.velocity (collisionNormal tBallA tBallB 5) ∧
    dot (resolveElasticM tBallA tBallB 5).1.velocity (collisionTangent tBallA tBallB 5)
        = dot tBallA.velocity (collisionTangent tBallA tBallB 5) := by
  have h := c8_elastic_swap tBallA tBallB 5 (by norm_num) (by decide)
  exact ⟨h.1, h.2.2.1⟩

/-- C9: previous.c `chkPockets` entered with `firstShot` already false
leaves both players' `type` fields and the `assignedType` flag exactly
as they were — assignment can only happen in a call entered with
`firstShot` still true — and `handleInput` clears `firstShot` at the
moment a (non-null) shot is released. -/
theorem c9_first_shot_gate :
    (∀ g : Game, g.firstShot = false →
       (Prev.chkPockets g).players.1.type = g.players.1.type ∧
       (Prev.chkPockets g).players.2.type = g.players.2.type ∧
       (Prev.chkPockets g).assignedTypes = g.assignedTypes) ∧
    (∀ (g : Game) (inp : Input) (pull : ℚ) (sv : Vec),
       inp.keyR = false → g.state ≠ GameState.scratch → g.ballsMoving = false →
       inp.pressed = false → inp.down = false → inp.released = true → g.aiming = true →
       ¬ (sqDist inp.mouse (if (g.balls 0).pocketed
            then g.cueBallPos else (g.balls 0).position) < 0.000001) →
       (Prev.handleInput g inp pull sv).firstShot = false) := by
  constructor
  · exact fun g hf => Prev.cpAux_noFS_frame scanIdx g false false hf
  · intro g inp pull sv hk hsc hbm hpr hdn hrl ham hnn
    unfold Prev.handleInput
    rw [if_neg (by simp [hk]), if_neg hsc, if_neg (by simp [hbm])]
    dsimp only
    unfold Upd.aimPress Upd.aimDrag Prev.aimReleaseP
    have hnp : ¬ (inp.pressed = true ∧
        sqDist inp.mouse (if (g.balls 0).pocketed = true
          then g.cueBallPos else (g.balls 0).position) ≤ 576) := by simp [hpr]
    rw [if_neg hnp]
    have hnd : ¬ (inp.down = true ∧ g.aiming = true) := by simp [hdn]
    rw [if_neg hnd]
    rw [if_pos (⟨hrl, ham⟩ : inp.released = true ∧ g.aiming = true), if_neg hnn]

theorem c9_witness :
    (Prev.chkPockets tNoFS).players.1.type = tNoFS.players.1.type ∧
    (Prev.handleInput tAim tReleaseInput 0 ⟨0, 0⟩).firstShot = false := by
  refine ⟨(c9_first_shot_gate.1 tNoFS rfl).1, ?_⟩
  exact c9_first_shot_gate.2 tAim tReleaseInput 0 ⟨0, 0⟩ rfl (by decide) rfl rfl rfl rfl rfl
    (by decide)

/-- C10: there is a pointer position accepted by the scratch placement
handler — strictly inside the rail-inset interior — that lies within
the capture radius of a pocket (the side pocket (400, 40), point
(400, 56)); placing the cue ball there resumes play, and the very next
pocket scan pockets the cue ball again, producing an immediate
re-scratch without any shot being taken. -/
theorem c10_immediate_rescratch :
    ∃ m : Vec,
      (55 < m.x ∧ m.x < 745 ∧ 55 < m.y ∧ m.y < 345) ∧
      (∃ q ∈ pocketList, sqDist m q < 784) ∧
      (tPlace m).state = GameState.playing ∧
      ((tPlace m).balls 0).pocketed = false ∧
      ((tPlace m).balls 0).position = m ∧
      ((Upd.CheckPockets (tPlace m)).balls 0).pocketed = true ∧
      (Upd.CheckPockets (tPlace m)).state = GameState.scratch := by
  exact ⟨⟨400, 56⟩, by decide⟩
